import Mathlib

/-!
Verification of okaproxy's request-admission pipeline: the HMAC-SHA256 token
codec and verification gate (`internal/middleware/auth.go`), the Redis-backed
rate limiter (`internal/middleware/redis.go`), and the router wiring of the
auxiliary endpoints (`internal/proxy/proxy.go`, `internal/server`).

Go strings are byte slices; we embed them as `List Nat` with entries < 256.
`ascii` converts a Lean string literal of ASCII characters to its byte list.
-/

namespace OkaProxy

/-- Bytes of an ASCII string literal (each char code point = its UTF-8 byte). -/
def ascii (s : String) : List Nat := s.data.map Char.toNat

/-! ## SHA-256 (FIPS 180-4), as computed by Go's `crypto/sha256`,
used by `encryptToken` via `crypto/hmac`. -/

/-- Truncate to a 32-bit word. -/
def w32 (n : Nat) : Nat := n % 4294967296

/-- Right rotation of a 32-bit word. -/
def rotr (n x : Nat) : Nat := w32 ((x >>> n) ||| (x <<< (32 - n)))

/-- Bitwise complement of a 32-bit word. -/
def wnot (x : Nat) : Nat := x ^^^ 4294967295

def ch (x y z : Nat) : Nat := (x &&& y) ^^^ (wnot x &&& z)

def maj (x y z : Nat) : Nat := (x &&& y) ^^^ (x &&& z) ^^^ (y &&& z)

def bigSigma0 (x : Nat) : Nat := rotr 2 x ^^^ rotr 13 x ^^^ rotr 22 x

def bigSigma1 (x : Nat) : Nat := rotr 6 x ^^^ rotr 11 x ^^^ rotr 25 x

def smallSigma0 (x : Nat) : Nat := rotr 7 x ^^^ rotr 18 x ^^^ (x >>> 3)

def smallSigma1 (x : Nat) : Nat := rotr 17 x ^^^ rotr 19 x ^^^ (x >>> 10)

/-- The 64 SHA-256 round constants. -/
def sha256K : List Nat :=
  [1116352408, 1899447441, 3049323471, 3921009573, 961987163, 1508970993,
   2453635748, 2870763221, 3624381080, 310598401, 607225278, 1426881987,
   1925078388, 2162078206, 2614888103, 3248222580, 3835390401, 4022224774,
   264347078, 604807628, 770255983, 1249150122, 1555081692, 1996064986,
   2554220882, 2821834349, 2952996808, 3210313671, 3336571891, 3584528711,
   113926993, 338241895, 666307205, 773529912, 1294757372, 1396182291,
   1695183700, 1986661051, 2177026350, 2456956037, 2730485921, 2820302411,
   3259730800, 3345764771, 3516065817, 3600352804, 4094571909, 275423344,
   430227734, 506948616, 659060556, 883997877, 958139571, 1322822218,
   1537002063, 1747873779, 1955562222, 2024104815, 2227730452, 2361852424,
   2428436474, 2756734187, 3204031479, 3329325298]

/-- The eight working variables of the compression function. -/
structure Hash8 where
  a : Nat
  b : Nat
  c : Nat
  d : Nat
  e : Nat
  f : Nat
  g : Nat
  h : Nat

/-- SHA-256 initial hash value. -/
def sha256H0 : Hash8 :=
  ⟨1779033703, 3144134277, 1013904242, 2773480762,
   1359893119, 2600822924, 528734635, 1541459225⟩

/-- One round of the SHA-256 compression function. -/
def compressRound (st : Hash8) (k w : Nat) : Hash8 :=
  let t1 := w32 (st.h + bigSigma1 st.e + ch st.e st.f st.g + k + w)
  let t2 := w32 (bigSigma0 st.a + maj st.a st.b st.c)
  ⟨w32 (t1 + t2), st.a, st.b, st.c, w32 (st.d + t1), st.e, st.f, st.g⟩

/-- Big-endian grouping of bytes into 32-bit words (4 bytes per word). -/
def bytesToWords : List Nat → List Nat
  | b0 :: b1 :: b2 :: b3 :: rest =>
      (b0 * 16777216 + b1 * 65536 + b2 * 256 + b3) :: bytesToWords rest
  | _ => []

/-- Extend a message-schedule prefix by `k` further words (W[i] is computed
from W[i-2], W[i-7], W[i-15] and W[i-16]). -/
def extendSchedule (ws : List Nat) : Nat → List Nat
  | 0 => ws
  | k + 1 =>
      let n := ws.length
      let wNew := w32 (smallSigma1 (ws.getD (n - 2) 0) + ws.getD (n - 7) 0 +
                       smallSigma0 (ws.getD (n - 15) 0) + ws.getD (n - 16) 0)
      extendSchedule (ws ++ [wNew]) k

/-- Process one 64-byte chunk, updating the intermediate hash. -/
def processChunk (H : Hash8) (chunk : List Nat) : Hash8 :=
  let ws := extendSchedule (bytesToWords chunk) 48
  let st := (sha256K.zip ws).foldl (fun s p => compressRound s p.1 p.2) H
  ⟨w32 (H.a + st.a), w32 (H.b + st.b), w32 (H.c + st.c), w32 (H.d + st.d),
   w32 (H.e + st.e), w32 (H.f + st.f), w32 (H.g + st.g), w32 (H.h + st.h)⟩

/-- Fold `processChunk` over successive 64-byte chunks. The first argument is
recursion fuel; any fuel at least the number of chunks (for instance the byte
length of the message) computes the full fold. -/
def processChunks : Nat → Hash8 → List Nat → Hash8
  | 0, H, _ => H
  | _ + 1, H, [] => H
  | fuel + 1, H, l => processChunks fuel (processChunk H (l.take 64)) (l.drop 64)

/-- Big-endian bytes of a 64-bit quantity. -/
def len64Bytes (n : Nat) : List Nat :=
  [n >>> 56 % 256, n >>> 48 % 256, n >>> 40 % 256, n >>> 32 % 256,
   n >>> 24 % 256, n >>> 16 % 256, n >>> 8 % 256, n % 256]

/-- SHA-256 padding: append 0x80, zeros up to 56 mod 64, then the bit length. -/
def sha256pad (msg : List Nat) : List Nat :=
  let padZeros := (119 - msg.length % 64) % 64
  msg ++ [0x80] ++ List.replicate padZeros 0 ++ len64Bytes (8 * msg.length)

/-- Big-endian bytes of a 32-bit word. -/
def wordBytes (w : Nat) : List Nat :=
  [w >>> 24 % 256, w >>> 16 % 256, w >>> 8 % 256, w % 256]

/-- SHA-256 digest (32 bytes) of a byte list. -/
def sha256 (msg : List Nat) : List Nat :=
  let padded := sha256pad msg
  let final := processChunks padded.length sha256H0 padded
  wordBytes final.a ++ wordBytes final.b ++ wordBytes final.c ++ wordBytes final.d ++
  wordBytes final.e ++ wordBytes final.f ++ wordBytes final.g ++ wordBytes final.h

/-- HMAC-SHA256 (RFC 2104), as computed by Go's `crypto/hmac` with the
SHA-256 block size of 64 bytes. -/
def hmacSha256 (key msg : List Nat) : List Nat :=
  let k0 := if 64 < key.length then sha256 key else key
  let kPad := k0 ++ List.replicate (64 - k0.length) 0
  let ipadKey := kPad.map (fun b => b ^^^ 0x36)
  let opadKey := kPad.map (fun b => b ^^^ 0x5c)
  sha256 (opadKey ++ sha256 (ipadKey ++ msg))

/-- Lowercase hex digit for a value below 16 (ASCII byte). -/
def hexDigit (n : Nat) : Nat := if n < 10 then 48 + n else 87 + n

/-- Lowercase hex encoding of a byte list, as Go's `encoding/hex`. -/
def hexEncode : List Nat → List Nat
  | [] => []
  | b :: rest => hexDigit (b / 16) :: hexDigit (b % 16) :: hexEncode rest

/-! ## Token codec: `encryptToken` / `verifyToken` (auth.go lines 38-56) -/

/-- Embeds `encryptToken` (auth.go line 38): HMAC-SHA256 of `data` keyed by
`secretKey`, hex-encoded in lowercase. -/
def encryptToken (data secretKey : List Nat) : List Nat :=
  hexEncode (hmacSha256 secretKey data)

/-- Embeds Go's `crypto/subtle.ConstantTimeCompare`: 0 when lengths differ;
otherwise OR together the XOR of every byte pair (never stopping early) and
return 1 exactly when the accumulated OR is 0. -/
def constantTimeCompare (x y : List Nat) : Nat :=
  if x.length ≠ y.length then 0
  else if (List.zipWith (fun a b => a ^^^ b) x y).foldl (fun v b => v ||| b) 0 = 0 then 1
  else 0

/-- Embeds `verifyToken` (auth.go line 45): recompute the expected token,
reject on length mismatch, else compare in constant time. -/
def verifyToken (data token secretKey : List Nat) : Bool :=
  let expected := encryptToken data secretKey
  if expected.length ≠ token.length then false
  else constantTimeCompare expected token == 1

/-! ## Decimal formatting and parsing (strconv.FormatInt / strconv.ParseInt) -/

/-- ASCII decimal digits of a natural number, most significant first
(Go `strconv.FormatInt(n, 10)` for nonnegative input). -/
def natToDecimalBytes (n : Nat) : List Nat :=
  if n = 0 then [48] else (Nat.digits 10 n).reverse.map (fun d => 48 + d)

/-- ASCII decimal representation of an integer (Go `strconv.FormatInt(i, 10)`). -/
def intToDecimalBytes (i : Int) : List Nat :=
  if i < 0 then 45 :: natToDecimalBytes i.natAbs else natToDecimalBytes i.toNat

/-- Embeds `strconv.ParseInt(s, 10, 64)`: optional sign, then decimal digits
only; values outside the signed 64-bit range are errors (`none`). -/
def parseInt64 (s : List Nat) : Option Int :=
  match s with
  | [] => none
  | c :: rest =>
      let digits := if c == 45 || c == 43 then rest else c :: rest
      if digits.isEmpty then none
      else if digits.all (fun d => decide (48 ≤ d) && decide (d ≤ 57)) then
        let n : Nat := digits.foldl (fun acc d => acc * 10 + (d - 48)) 0
        let v : Int := if c == 45 then -(n : Int) else (n : Int)
        if -(2 ^ 63) ≤ v ∧ v ≤ 2 ^ 63 - 1 then some v else none
      else none

/-! ## Verification gate: `CheckVerification` (auth.go lines 59-96) -/

/-- Terminal behaviour of one `CheckVerification` invocation. -/
inductive GateOutcome where
  | challenge : GateOutcome
  | clearAndChallenge : GateOutcome
  | next : GateOutcome
deriving DecidableEq

/-- Embeds the `CheckVerification` handler: missing/empty cookies challenge;
an unparsable or past expiration, or a failed token check, clears the cookies
and re-challenges; otherwise the request passes to the next stage.
`now` is `time.Now().UnixMilli()`. -/
def checkVerification (validationToken validationExpiration : Option (List Nat))
    (now : Int) (secretKey : List Nat) : GateOutcome :=
  match validationToken with
  | none => .challenge
  | some vt =>
    if vt = [] then .challenge
    else
      match validationExpiration with
      | none => .challenge
      | some ve =>
        if ve = [] then .challenge
        else
          match parseInt64 ve with
          | none => .clearAndChallenge
          | some exp =>
            if now > exp then .clearAndChallenge
            else if verifyToken ve vt secretKey then .next
            else .clearAndChallenge

/-! ## Challenge response: `showVerificationPage` (auth.go lines 99-132) -/

/-- One `http.SetCookie` call as issued through gin's `Context.SetCookie`. -/
structure Cookie where
  name : List Nat
  value : List Nat
  maxAge : Int
  path : List Nat
  domain : List Nat
  secure : Bool
  httpOnly : Bool

/-- The challenge response: cookies set, HTTP status, body. -/
structure ChallengeResponse where
  cookies : List Cookie
  status : Nat
  body : List Nat

/-- Embeds `showVerificationPage`: mint a token for `now + expired*1000`
milliseconds, set both cookies with max-age `expired` seconds, `secure` false
and `httpOnly` true (auth.go lines 108-126), and answer 200 with the page. -/
def showVerificationPage (now expired : Int) (secretKey page : List Nat) :
    ChallengeResponse :=
  let newExpirationTime := now + expired * 1000
  let newExpirationStr := intToDecimalBytes newExpirationTime
  let newToken := encryptToken newExpirationStr secretKey
  ⟨[⟨ascii "oka_validation_token", newToken, expired, ascii "/", [], false, true⟩,
    ⟨ascii "oka_validation_expiration", newExpirationStr, expired, ascii "/", [], false, true⟩],
   200, page⟩

/-! ## Rate limiter: `RateLimitMiddleware` (redis.go lines 55-110) -/

/-- Redis state restricted to what the limiter uses: per-key counters and
per-key time-to-live. -/
structure RedisState where
  counts : List Nat → Nat
  ttls : List Nat → Option Int

/-- A Redis store with no keys. -/
def freshRedis : RedisState := ⟨fun _ => 0, fun _ => none⟩

/-- The key built at redis.go line 66: `oka_rate_limit:` + client IP. -/
def rateLimitKey (clientIP : List Nat) : List Nat :=
  ascii "oka_rate_limit:" ++ clientIP

/-- Embeds the Lua script at redis.go lines 72-79 as one atomic step:
INCR the key, and EXPIRE it to the window exactly when the incremented
value is 1; the incremented value is returned. -/
def incrExpireScript (st : RedisState) (key : List Nat) (window : Int) :
    Nat × RedisState :=
  let current := st.counts key + 1
  ⟨current,
   { counts := fun k => if k = key then current else st.counts k,
     ttls := fun k => if k = key ∧ current = 1 then some window else st.ttls k }⟩

/-- What the `Eval` call handed back to the middleware. -/
inductive RedisReply where
  | err : RedisReply
  | intVal : Int → RedisReply
  | nonInt : RedisReply

/-- Middleware action: pass the request on, or abort with
429 `Too many requests, please try again later.`. -/
inductive RLOutcome where
  | next : RLOutcome
  | abort429 : RLOutcome
deriving DecidableEq

/-- Embeds redis.go lines 83-108: a Redis error or an unparsable reply is
logged and the request passes through (fail-open); an integer reply aborts
with 429 exactly when it exceeds the configured count. -/
def rateLimitCheck (count : Int) (reply : RedisReply) : RLOutcome :=
  match reply with
  | .err => .next
  | .nonInt => .next
  | .intVal requests => if requests > count then .abort429 else .next

/-- Result of one `RateLimitMiddleware` invocation: the action taken, whether
Redis was contacted, and the store state afterwards. -/
structure RLResult where
  outcome : RLOutcome
  storeAccessed : Bool
  state : RedisState

/-- Embeds one `RateLimitMiddleware` invocation. With count or window
configured 0 the request passes with no store access. Otherwise the atomic
script runs against the key for the client IP when the store is healthy
(`healthy = true`); an unhealthy store yields an errored reply. -/
def rateLimitMiddleware (count window : Int) (clientIP : List Nat)
    (st : RedisState) (healthy : Bool) : RLResult :=
  if count = 0 ∨ window = 0 then ⟨.next, false, st⟩
  else if healthy then
    let res := incrExpireScript st (rateLimitKey clientIP) window
    ⟨rateLimitCheck count (.intVal (res.1 : Int)), true, res.2⟩
  else
    ⟨rateLimitCheck count .err, true, st⟩

/-- Store state after `n` requests from the same client (all within one
window: no TTL expiry occurs between them). -/
def afterRequests (count window : Int) (clientIP : List Nat) (st : RedisState)
    (healthy : Bool) : Nat → RedisState
  | 0 => st
  | n + 1 =>
      (rateLimitMiddleware count window clientIP
        (afterRequests count window clientIP st healthy n) healthy).state

/-- Outcome of the `k`-th request (1-based) from the same client within one
window, starting from store state `st`. -/
def nthRequestOutcome (count window : Int) (clientIP : List Nat)
    (st : RedisState) (healthy : Bool) (k : Nat) : RLOutcome :=
  (rateLimitMiddleware count window clientIP
    (afterRequests count window clientIP st healthy (k - 1)) healthy).outcome

/-- A burst of `n` atomic script executions against one key: the list of
values each execution observed, and the final store state. Because the Lua
script is a single atomic step, every interleaving of `n` concurrent
executions is one such sequence. -/
def burst (window : Int) (key : List Nat) (st : RedisState) :
    Nat → List Nat × RedisState
  | 0 => ([], st)
  | n + 1 =>
      let first := incrExpireScript st key window
      let rest := burst window key first.2 n
      (first.1 :: rest.1, rest.2)

/-! ## Router wiring (server addMiddlewares / addRoutes) and the auxiliary
handlers (proxy.go lines 191-223) -/

/-- Body of `HealthCheckHandler`'s JSON reply. -/
structure HealthPayload where
  status : List Nat
  timestamp : Int
  version : List Nat
deriving DecidableEq

/-- Body of `StatusHandler`'s JSON reply. -/
structure StatusPayload where
  serverName : List Nat
  targetUrl : List Nat
  targetStatus : List Nat
  timestamp : Int
deriving DecidableEq

/-- Embeds `HealthCheckHandler` (proxy.go line 191): always 200 with the
fixed healthy payload. -/
def healthCheckHandler (now : Int) : Nat × HealthPayload :=
  (200, ⟨ascii "healthy", now, ascii "1.0.0"⟩)

/-- Embeds `StatusHandler` (proxy.go line 202): always 200 with the server
name, target URL, probe result and timestamp. -/
def statusHandler (serverName targetUrl probeResult : List Nat) (now : Int) :
    Nat × StatusPayload :=
  (200, ⟨serverName, targetUrl, probeResult, now⟩)

/-- The response produced by the router for one request. -/
inductive RouteResponse where
  | verificationPage : RouteResponse
  | clearedVerificationPage : RouteResponse
  | rateLimited : RouteResponse
  | healthOk : Nat × HealthPayload → RouteResponse
  | statusOk : Nat × StatusPayload → RouteResponse
  | proxied : RouteResponse
deriving DecidableEq

/-- Embeds the gin router assembled by `addMiddlewares` then `addRoutes`:
`router.Use(CheckVerification, RateLimitMiddleware)` precedes the `GET
/health`, `GET /status` and `NoRoute` registrations, so in gin every one of
those handler chains starts with the gate and the limiter. -/
def handleRequest (path : List Nat) (validationToken validationExpiration : Option (List Nat))
    (now : Int) (secretKey : List Nat) (count window : Int) (clientIP : List Nat)
    (st : RedisState) (healthy : Bool) (serverName targetUrl probeResult : List Nat) :
    RouteResponse :=
  match checkVerification validationToken validationExpiration now secretKey with
  | .challenge => .verificationPage
  | .clearAndChallenge => .clearedVerificationPage
  | .next =>
    match (rateLimitMiddleware count window clientIP st healthy).outcome with
    | .abort429 => .rateLimited
    | .next =>
      if path = ascii "/health" then .healthOk (healthCheckHandler now)
      else if path = ascii "/status" then
        .statusOk (statusHandler serverName targetUrl probeResult now)
      else .proxied

/-! ## Sanity anchors: FIPS 180-4 and RFC 2104 test vectors -/

set_option maxRecDepth 100000 in
theorem sha256_empty_vector :
    hexEncode (sha256 (ascii "")) =
      ascii "e3b0c44298fc1c149afbf4c8996fb92427ae41e4649b934ca495991b7852b855" := by
  decide

set_option maxRecDepth 100000 in
theorem sha256_abc_vector :
    hexEncode (sha256 (ascii "abc")) =
      ascii "ba7816bf8f01cfea414140de5dae2223b00361a396177a9cb410ff61f20015ad" := by
  decide

set_option maxRecDepth 100000 in
theorem hmacSha256_vector :
    hexEncode (hmacSha256 (ascii "key")
        (ascii "The quick brown fox jumps over the lazy dog")) =
      ascii "f7bc83f430538424b13298e6aa6fb143ef4d59a14946175997479dbc2d1a3cd8" := by
  decide

/-! ## Token codec lemmas -/

theorem sha256_length (msg : List Nat) : (sha256 msg).length = 32 := by
  simp [sha256, wordBytes]

theorem hmacSha256_length (key msg : List Nat) : (hmacSha256 key msg).length = 32 := by
  simp [hmacSha256, sha256_length]

theorem hexEncode_length (l : List Nat) : (hexEncode l).length = 2 * l.length := by
  induction l with
  | nil => rfl
  | cons b rest ih => simp [hexEncode, ih]; omega

theorem encryptToken_length (data secretKey : List Nat) :
    (encryptToken data secretKey).length = 64 := by
  rw [encryptToken, hexEncode_length, hmacSha256_length]

theorem encryptToken_ne_nil (data secretKey : List Nat) :
    encryptToken data secretKey ≠ [] := by
  intro h
  have h64 := encryptToken_length data secretKey
  rw [h] at h64
  simp at h64

theorem lor_eq_zero_iff (a b : Nat) : a ||| b = 0 ↔ a = 0 ∧ b = 0 := by
  constructor
  · intro h
    refine ⟨Nat.zero_of_testBit_eq_false fun i => ?_,
            Nat.zero_of_testBit_eq_false fun i => ?_⟩ <;>
    · have := congrArg (Nat.testBit · i) h
      simp [Nat.testBit_or] at this
      tauto
  · rintro ⟨rfl, rfl⟩; rfl

theorem foldl_lor_eq_zero (l : List Nat) (a : Nat) :
    l.foldl (fun v b => v ||| b) a = 0 ↔ a = 0 ∧ ∀ b ∈ l, b = 0 := by
  induction l generalizing a with
  | nil => simp
  | cons x xs ih =>
    simp only [List.foldl_cons, ih, lor_eq_zero_iff, List.mem_cons]
    constructor
    · rintro ⟨⟨ha, hx⟩, hrest⟩
      exact ⟨ha, fun b hb => hb.elim (fun h => h ▸ hx) (hrest b)⟩
    · rintro ⟨ha, hall⟩
      exact ⟨⟨ha, hall x (Or.inl rfl)⟩, fun b hb => hall b (Or.inr hb)⟩

theorem zipWith_xor_eq_nil_iff (x y : List Nat) (h : x.length = y.length) :
    (∀ b ∈ List.zipWith (fun a b => a ^^^ b) x y, b = 0) ↔ x = y := by
  induction x generalizing y with
  | nil =>
    cases y with
    | nil => simp
    | cons b ys => simp at h
  | cons a xs ih =>
    cases y with
    | nil => simp at h
    | cons b ys =>
      simp only [List.zipWith_cons_cons, List.mem_cons, List.cons.injEq]
      have hlen : xs.length = ys.length := by simpa using h
      constructor
      · intro hall
        refine ⟨Nat.xor_eq_zero.mp (hall _ (Or.inl rfl)), (ih ys hlen).mp ?_⟩
        exact fun c hc => hall c (Or.inr hc)
      · rintro ⟨rfl, rfl⟩
        intro c hc
        rcases hc with h1 | h2
        · rw [h1]; exact Nat.xor_self a
        · exact ((ih xs rfl).mpr rfl) c h2

theorem constantTimeCompare_eq_one (x y : List Nat) (h : x.length = y.length) :
    constantTimeCompare x y = 1 ↔ x = y := by
  rw [constantTimeCompare, if_neg (by simp [h])]
  by_cases hf :
      (List.zipWith (fun a b => a ^^^ b) x y).foldl (fun v b => v ||| b) 0 = 0
  · rw [if_pos hf]
    have := (foldl_lor_eq_zero _ 0).mp hf
    exact ⟨fun _ => (zipWith_xor_eq_nil_iff x y h).mp this.2, fun _ => rfl⟩
  · rw [if_neg hf]
    constructor
    · intro h01; exact absurd h01 (by decide)
    · rintro rfl
      exact absurd ((foldl_lor_eq_zero _ 0).mpr
        ⟨rfl, (zipWith_xor_eq_nil_iff x x rfl).mpr rfl⟩) hf

theorem constantTimeCompare_self (x : List Nat) : constantTimeCompare x x = 1 :=
  (constantTimeCompare_eq_one x x rfl).mpr rfl

theorem verifyToken_eq_true_iff (data token secretKey : List Nat)
    (h : token.length = (encryptToken data secretKey).length) :
    (verifyToken data token secretKey = true ↔ token = encryptToken data secretKey) := by
  rw [verifyToken]
  simp only [if_neg (show ¬ (encryptToken data secretKey).length ≠ token.length by omega)]
  rw [beq_iff_eq, constantTimeCompare_eq_one _ _ h.symm, eq_comm]

theorem verifyToken_self (data secretKey : List Nat) :
    verifyToken data (encryptToken data secretKey) secretKey = true :=
  (verifyToken_eq_true_iff data _ secretKey rfl).mpr rfl

/-- C1: Token round-trip soundness — for every expiration timestamp `t` and
secret `s`, verifying the token minted for `t` under `s` succeeds:
`verifyToken (stringify t) (encryptToken (stringify t) s) s = true`, where
`encryptToken` is HMAC-SHA256 of the decimal timestamp string encoded as
lowercase hex. -/
theorem token_roundtrip_sound (t : Int) (s : List Nat) :
    verifyToken (intToDecimalBytes t) (encryptToken (intToDecimalBytes t) s) s = true :=
  verifyToken_self (intToDecimalBytes t) s

/-- C3: Constant-time, length-checked verification — the expected digest is
always 64 hex characters; a supplied token whose length differs is rejected
before any byte comparison; for equal lengths the non-short-circuiting
comparison returns true exactly when every byte matches. -/
theorem verifyToken_constant_time (data token s : List Nat) :
    (encryptToken data s).length = 64
    ∧ (token.length ≠ 64 → verifyToken data token s = false)
    ∧ (token.length = (encryptToken data s).length →
        (verifyToken data token s = true ↔ token = encryptToken data s)) := by
  refine ⟨encryptToken_length data s, fun hne => ?_, verifyToken_eq_true_iff data token s⟩
  rw [verifyToken]
  simp only [encryptToken_length]
  rw [if_pos (fun heq => hne heq.symm)]

/-- Witness for C3 at a concrete short token. -/
theorem verifyToken_constant_time_witness :
    ([1, 2] : List Nat).length ≠ 64 ∧ verifyToken [97] [1, 2] [107] = false :=
  ⟨by decide, (verifyToken_constant_time [97] [1, 2] [107]).2.1 (by decide)⟩

/-! ## Decimal round-trip lemmas -/

theorem foldl_decimal (M : List Nat) (a : Nat) :
    M.foldl (fun acc d => acc * 10 + d) a = a * 10 ^ M.length + Nat.ofDigits 10 M.reverse := by
  induction M generalizing a with
  | nil => simp
  | cons d M ih =>
    simp only [List.foldl_cons, ih, List.reverse_cons, Nat.ofDigits_append,
      List.length_cons, List.length_reverse, Nat.ofDigits_singleton, pow_succ]
    ring

theorem natToDecimalBytes_all_digits (n : Nat) :
    ∀ c ∈ natToDecimalBytes n, 48 ≤ c ∧ c ≤ 57 := by
  intro c hc
  rw [natToDecimalBytes] at hc
  split at hc
  · simp at hc
    omega
  · simp only [List.mem_map, List.mem_reverse] at hc
    obtain ⟨d, hd, rfl⟩ := hc
    have := Nat.digits_lt_base (by norm_num) hd
    omega

theorem natToDecimalBytes_ne_nil (n : Nat) : natToDecimalBytes n ≠ [] := by
  rw [natToDecimalBytes]
  split
  · simp
  · simp only [ne_eq, List.map_eq_nil_iff, List.reverse_eq_nil_iff]
    exact Nat.digits_ne_nil_iff_ne_zero.mpr (by assumption)

theorem natToDecimalBytes_foldl (n : Nat) :
    (natToDecimalBytes n).foldl (fun acc d => acc * 10 + (d - 48)) 0 = n := by
  rw [natToDecimalBytes]
  split
  · subst n; rfl
  · rw [List.foldl_map]
    have hfun : (fun (acc d : Nat) => acc * 10 + (48 + d - 48)) =
        fun acc d => acc * 10 + d := by
      funext acc d; omega
    rw [hfun, foldl_decimal, List.reverse_reverse, Nat.ofDigits_digits]
    simp

theorem parseInt64_natToDecimalBytes (n : Nat) (h : n ≤ 2 ^ 63 - 1) :
    parseInt64 (natToDecimalBytes n) = some (n : Int) := by
  obtain ⟨c, rest, hL⟩ := List.exists_cons_of_ne_nil (natToDecimalBytes_ne_nil n)
  have hdig := natToDecimalBytes_all_digits n
  have hc : 48 ≤ c ∧ c ≤ 57 := hdig c (by rw [hL]; exact List.mem_cons_self c rest)
  have hc45 : (c == 45) = false := by
    rw [beq_eq_false_iff_ne]; omega
  have hc43 : (c == 43) = false := by
    rw [beq_eq_false_iff_ne]; omega
  have hall : (c :: rest).all (fun d => decide (48 ≤ d) && decide (d ≤ 57)) = true := by
    rw [List.all_eq_true]
    intro d hd
    have := hdig d (by rw [hL]; exact hd)
    simp only [Bool.and_eq_true, decide_eq_true_eq]
    omega
  have hfold : (c :: rest).foldl (fun acc d => acc * 10 + (d - 48)) 0 = n := by
    rw [← hL]; exact natToDecimalBytes_foldl n
  have hcond : -(2 : Int) ^ 63 ≤ (n : Int) ∧ (n : Int) ≤ 2 ^ 63 - 1 := by
    have h1 : (0 : Int) ≤ (n : Int) := Int.natCast_nonneg n
    have h2 : (n : Int) ≤ ((2 ^ 63 - 1 : Nat) : Int) := by exact_mod_cast h
    norm_num at h2 ⊢
    omega
  rw [hL, parseInt64]
  simp only [hc45, hc43, Bool.or_false, Bool.false_eq_true, if_false, List.isEmpty_cons,
    hall, if_true, hfold, if_pos hcond]

theorem parseInt64_intToDecimalBytes (i : Int) (h0 : 0 ≤ i) (h : i ≤ 2 ^ 63 - 1) :
    parseInt64 (intToDecimalBytes i) = some i := by
  rw [intToDecimalBytes, if_neg (not_lt.mpr h0),
    parseInt64_natToDecimalBytes _ (by omega), Int.toNat_of_nonneg h0]

theorem intToDecimalBytes_ne_nil (i : Int) (h0 : 0 ≤ i) : intToDecimalBytes i ≠ [] := by
  rw [intToDecimalBytes, if_neg (not_lt.mpr h0)]
  exact natToDecimalBytes_ne_nil _

/-! ## Verification-gate lemmas -/

/-- With a well-formed cookie pair (decimal expiration string and its exact
HMAC token), the gate's outcome is decided solely by the expiry test. -/
theorem checkVerification_wellformed (exp now : Int) (secret : List Nat)
    (h0 : 0 ≤ exp) (h63 : exp ≤ 2 ^ 63 - 1) :
    checkVerification (some (encryptToken (intToDecimalBytes exp) secret))
      (some (intToDecimalBytes exp)) now secret
    = (if now ≤ exp then GateOutcome.next else GateOutcome.clearAndChallenge) := by
  simp only [checkVerification, if_neg (encryptToken_ne_nil (intToDecimalBytes exp) secret),
    if_neg (intToDecimalBytes_ne_nil exp h0), parseInt64_intToDecimalBytes exp h0 h63]
  by_cases hnow : now ≤ exp
  · rw [if_neg (not_lt.mpr hnow), if_pos (verifyToken_self _ _), if_pos hnow]
  · rw [if_pos (not_le.mp hnow), if_neg hnow]

/-- C2: Token validity boundary — with a well-formed cookie pair whose digest
matches the HMAC of the expiration string, the gate passes exactly when
`now ≤ expiration` (epoch ms); it passes at `expiration - 1` and clears the
cookies and re-challenges at `expiration + 1`. -/
theorem gate_expiry_boundary (exp now : Int) (h0 : 0 ≤ exp) (h63 : exp ≤ 2 ^ 63 - 1)
    (secret : List Nat) :
    (checkVerification (some (encryptToken (intToDecimalBytes exp) secret))
        (some (intToDecimalBytes exp)) now secret = GateOutcome.next ↔ now ≤ exp)
    ∧ checkVerification (some (encryptToken (intToDecimalBytes exp) secret))
        (some (intToDecimalBytes exp)) (exp - 1) secret = GateOutcome.next
    ∧ checkVerification (some (encryptToken (intToDecimalBytes exp) secret))
        (some (intToDecimalBytes exp)) (exp + 1) secret = GateOutcome.clearAndChallenge := by
  refine ⟨?_, ?_, ?_⟩ <;> rw [checkVerification_wellformed exp _ secret h0 h63]
  · by_cases hnow : now ≤ exp
    · simp [hnow]
    · simp [hnow]
  · rw [if_pos (by omega)]
  · rw [if_neg (by omega)]

/-- Witness for C2 at expiration 1000 ms, current time 999 ms. -/
theorem gate_expiry_boundary_witness :
    (0 : Int) ≤ 1000 ∧ (1000 : Int) ≤ 2 ^ 63 - 1 ∧
    ((checkVerification (some (encryptToken (intToDecimalBytes 1000) [107]))
        (some (intToDecimalBytes 1000)) 999 [107] = GateOutcome.next ↔ (999 : Int) ≤ 1000)
     ∧ checkVerification (some (encryptToken (intToDecimalBytes 1000) [107]))
        (some (intToDecimalBytes 1000)) (1000 - 1) [107] = GateOutcome.next
     ∧ checkVerification (some (encryptToken (intToDecimalBytes 1000) [107]))
        (some (intToDecimalBytes 1000)) (1000 + 1) [107] = GateOutcome.clearAndChallenge) :=
  ⟨by decide, by decide, gate_expiry_boundary 1000 999 (by decide) (by decide) [107]⟩

/-! ## Rate-limiter lemmas -/

/-- The 429 rejection payload rendered for an aborted request, and nothing
for a passed one. -/
def rateLimitResponse : RLOutcome → Option (Nat × List Nat)
  | .next => none
  | .abort429 => some (429, ascii "Too many requests, please try again later.")

theorem rateLimitMiddleware_enabled (count window : Int) (ip : List Nat)
    (st : RedisState) (hc : count ≠ 0) (hw : window ≠ 0) :
    rateLimitMiddleware count window ip st true =
      ⟨if (st.counts (rateLimitKey ip) + 1 : Int) > count then .abort429 else .next,
       true,
       (incrExpireScript st (rateLimitKey ip) window).2⟩ := by
  rw [rateLimitMiddleware, if_neg (by tauto), if_pos rfl]
  simp [incrExpireScript, rateLimitCheck]

theorem rateLimitMiddleware_counts (count window : Int) (ip : List Nat)
    (st : RedisState) (hc : count ≠ 0) (hw : window ≠ 0) :
    (rateLimitMiddleware count window ip st true).state.counts (rateLimitKey ip)
      = st.counts (rateLimitKey ip) + 1 := by
  rw [rateLimitMiddleware_enabled count window ip st hc hw]
  simp [incrExpireScript]

theorem afterRequests_counts (count window : Int) (ip : List Nat)
    (hc : count ≠ 0) (hw : window ≠ 0) (n : Nat) :
    (afterRequests count window ip freshRedis true n).counts (rateLimitKey ip) = n := by
  induction n with
  | zero => rfl
  | succ n ih =>
    rw [afterRequests, rateLimitMiddleware_counts count window ip _ hc hw, ih]

theorem nthRequestOutcome_spec (count window : Int) (ip : List Nat)
    (hc : count ≠ 0) (hw : window ≠ 0) (k : Nat) (hk : 0 < k) :
    nthRequestOutcome count window ip freshRedis true k =
      (if (k : Int) > count then RLOutcome.abort429 else RLOutcome.next) := by
  rw [nthRequestOutcome, rateLimitMiddleware_enabled count window ip _ hc hw]
  rw [afterRequests_counts count window ip hc hw (k - 1)]
  have hcast : ((k - 1 : Nat) : Int) + 1 = (k : Int) := by omega
  rw [hcast]

/-- C4: Rate-limiter threshold — with ceiling `N > 0` and window `W > 0` and
the store reachable, the `N`-th request from one client in a window passes to
the next stage while the `(N+1)`-th is aborted with the 429 JSON rejection;
and a zero ceiling or zero window makes the limiter pass every request
through with no store access. -/
theorem rate_limit_threshold (N W : Int) (hN : 0 < N) (hW : 0 < W) (ip : List Nat) :
    nthRequestOutcome N W ip freshRedis true N.toNat = RLOutcome.next
    ∧ nthRequestOutcome N W ip freshRedis true (N.toNat + 1) = RLOutcome.abort429
    ∧ rateLimitResponse (nthRequestOutcome N W ip freshRedis true (N.toNat + 1))
        = some (429, ascii "Too many requests, please try again later.")
    ∧ (∀ count window : Int, ∀ ip2 : List Nat, ∀ st : RedisState, ∀ healthy : Bool,
        count = 0 ∨ window = 0 →
        rateLimitMiddleware count window ip2 st healthy =
          ⟨RLOutcome.next, false, st⟩) := by
  have hNnat : (0 : Nat) < N.toNat := by omega
  have hcast : ((N.toNat : Int)) = N := Int.toNat_of_nonneg (le_of_lt hN)
  have h1 : nthRequestOutcome N W ip freshRedis true N.toNat = RLOutcome.next := by
    rw [nthRequestOutcome_spec N W ip (by omega) (by omega) N.toNat hNnat, hcast,
      if_neg (lt_irrefl N)]
  have h2 : nthRequestOutcome N W ip freshRedis true (N.toNat + 1) = RLOutcome.abort429 := by
    rw [nthRequestOutcome_spec N W ip (by omega) (by omega) (N.toNat + 1) (by omega)]
    rw [if_pos (by push_cast; omega)]
  refine ⟨h1, h2, by rw [h2]; rfl, fun count window ip2 st healthy hdis => ?_⟩
  rw [rateLimitMiddleware, if_pos hdis]

/-- Witness for C4 with ceiling 3, window 10 seconds. -/
theorem rate_limit_threshold_witness :
    (0 : Int) < 3 ∧ (0 : Int) < 10 ∧
    (nthRequestOutcome 3 10 [99] freshRedis true (Int.toNat 3) = RLOutcome.next
     ∧ nthRequestOutcome 3 10 [99] freshRedis true (Int.toNat 3 + 1) = RLOutcome.abort429) :=
  ⟨by decide, by decide,
   ⟨(rate_limit_threshold 3 10 (by decide) (by decide) [99]).1,
    (rate_limit_threshold 3 10 (by decide) (by decide) [99]).2.1⟩⟩

/-- C5: Fail-open — a Redis error or an unparsable script result never
produces a rejection: the limiter passes the request to the next stage and
leaves the store untouched, whatever the configured limits and whatever the
current counter state (request volume). -/
theorem rate_limit_fail_open (count window : Int) (ip : List Nat) (st : RedisState) :
    rateLimitCheck count RedisReply.err = RLOutcome.next
    ∧ rateLimitCheck count RedisReply.nonInt = RLOutcome.next
    ∧ (rateLimitMiddleware count window ip st false).outcome = RLOutcome.next
    ∧ (rateLimitMiddleware count window ip st false).state = st
    ∧ rateLimitResponse (rateLimitMiddleware count window ip st false).outcome = none := by
  refine ⟨rfl, rfl, ?_, ?_, ?_⟩ <;>
  · by_cases hdis : count = 0 ∨ window = 0
    · simp [rateLimitMiddleware, hdis, rateLimitResponse]
    · simp [rateLimitMiddleware, hdis, rateLimitCheck, rateLimitResponse]

/-- C10: Rejected requests still consume quota — every counted request
increments the client's key before the ceiling comparison and the increment
is never rolled back, so after `k` requests in one window the stored count is
exactly `k`, even when `k` strictly exceeds the ceiling and the `k`-th
request was rejected with 429. -/
theorem rejected_requests_consume_quota (count window : Int) (ip : List Nat)
    (hc : count ≠ 0) (hw : window ≠ 0) :
    (∀ st : RedisState,
      (rateLimitMiddleware count window ip st true).state.counts (rateLimitKey ip)
        = st.counts (rateLimitKey ip) + 1)
    ∧ (∀ n : Nat,
        (afterRequests count window ip freshRedis true n).counts (rateLimitKey ip) = n)
    ∧ (∀ k : Nat, 0 < k → (k : Int) > count →
        nthRequestOutcome count window ip freshRedis true k = RLOutcome.abort429
        ∧ (afterRequests count window ip freshRedis true k).counts (rateLimitKey ip) = k) := by
  refine ⟨fun st => rateLimitMiddleware_counts count window ip st hc hw,
          afterRequests_counts count window ip hc hw,
          fun k hk hover => ⟨?_, afterRequests_counts count window ip hc hw k⟩⟩
  rw [nthRequestOutcome_spec count window ip hc hw k hk, if_pos hover]

/-- Witness for C10 with ceiling 2: the 5th request is rejected yet the
stored count reaches 5. -/
theorem rejected_requests_consume_quota_witness :
    (2 : Int) ≠ 0 ∧ (7 : Int) ≠ 0 ∧ (0 : Nat) < 5 ∧ ((5 : Nat) : Int) > 2 ∧
    (nthRequestOutcome 2 7 [98] freshRedis true 5 = RLOutcome.abort429
     ∧ (afterRequests 2 7 [98] freshRedis true 5).counts (rateLimitKey [98]) = 5) :=
  ⟨by decide, by decide, by decide, by decide,
   (rejected_requests_consume_quota 2 7 [98] (by decide) (by decide)).2.2 5
     (by decide) (by decide)⟩

/-! ## Burst lemmas for atomicity (C9) -/

theorem incrExpireScript_counts (st : RedisState) (key : List Nat) (window : Int) :
    (incrExpireScript st key window).2.counts key = st.counts key + 1 := by
  simp [incrExpireScript]

theorem burst_observations (window : Int) (key : List Nat) (n : Nat) :
    ∀ st : RedisState,
      (burst window key st n).1 = (List.range n).map (fun i => st.counts key + i + 1) := by
  induction n with
  | zero => intro st; simp [burst]
  | succ n ih =>
    intro st
    simp only [burst]
    rw [ih (incrExpireScript st key window).2, incrExpireScript_counts,
      List.range_succ_eq_map, List.map_cons, List.map_map]
    congr 1
    refine List.map_congr_left fun a ha => ?_
    simp only [Function.comp_apply]
    omega

theorem burst_ttl_preserved (window : Int) (key : List Nat) (n : Nat) :
    ∀ st : RedisState, 0 < st.counts key →
      (burst window key st n).2.ttls key = st.ttls key := by
  induction n with
  | zero => intro st _; rfl
  | succ n ih =>
    intro st hpos
    simp only [burst]
    have hcounts := incrExpireScript_counts st key window
    have httl : (incrExpireScript st key window).2.ttls key = st.ttls key := by
      simp only [incrExpireScript]
      rw [if_neg]
      rintro ⟨-, hone⟩
      omega
    rw [ih (incrExpireScript st key window).2 (by omega), httl]

/-- C9: Rate-limiter atomicity — the increment-and-conditionally-expire runs
as one atomic Lua script, so any interleaving of `n` concurrent executions
against a fresh key is a sequence of `n` atomic steps; in every such
sequence exactly one execution observes count 1, and afterwards the key
carries the finite TTL equal to the configured window. -/
theorem rate_limit_atomicity (window : Int) (key : List Nat) (st : RedisState)
    (n : Nat) (h0 : st.counts key = 0) (_httl : st.ttls key = none) (hn : 0 < n) :
    ((burst window key st n).1.count 1 = 1)
    ∧ ((burst window key st n).2.ttls key = some window) := by
  constructor
  · rw [burst_observations window key n st, h0]
    have hmap : (List.range n).map (fun i => 0 + i + 1) = (List.range n).map (· + 1) := by
      apply List.map_congr_left; intro i _; omega
    rw [hmap]
    have hinj : Function.Injective (· + 1 : Nat → Nat) := fun a b h => by simpa using h
    have hnodup : ((List.range n).map (· + 1)).Nodup :=
      (List.nodup_range n).map hinj
    have hmem : 1 ∈ (List.range n).map (· + 1 : Nat → Nat) := by
      simp only [List.mem_map, List.mem_range]
      exact ⟨0, hn, rfl⟩
    exact List.count_eq_one_of_mem hnodup hmem
  · cases n with
    | zero => omega
    | succ m =>
      simp only [burst]
      have hfirst : (incrExpireScript st key window).2.ttls key = some window := by
        simp [incrExpireScript, h0]
      have hcounts := incrExpireScript_counts st key window
      rw [burst_ttl_preserved window key m (incrExpireScript st key window).2 (by omega),
        hfirst]

/-- Witness for C9: a burst of 3 concurrent increments on a fresh key. -/
theorem rate_limit_atomicity_witness :
    freshRedis.counts [107] = 0 ∧ freshRedis.ttls [107] = none ∧ (0 : Nat) < 3 ∧
    ((burst 30 [107] freshRedis 3).1.count 1 = 1
     ∧ (burst 30 [107] freshRedis 3).2.ttls [107] = some 30) :=
  ⟨rfl, rfl, by decide, rate_limit_atomicity 30 [107] freshRedis 3 rfl rfl (by decide)⟩

/-! ## Cookie wire contract (C6) -/

/-- C6 counterexample: at a concrete challenge, the token cookie is HTTP-only
(not script-readable) and the expiration cookie is not marked secure, so the
claimed flag assignment fails. -/
theorem cookie_flags_counterexample :
    ¬ (((showVerificationPage 0 300 [107] []).cookies.headD
          ⟨[], [], 0, [], [], false, false⟩).httpOnly = false
       ∧ ((showVerificationPage 0 300 [107] []).cookies.getD 1
          ⟨[], [], 0, [], [], false, false⟩).secure = true) := by
  decide

/-- C6 amended: every challenge response sets the `oka_validation_token`
cookie (64-char hex HMAC digest) and the `oka_validation_expiration` cookie
(decimal epoch-milliseconds string), both with max-age equal to the
configured token lifetime in seconds — but both cookies are HTTP-only and
neither is marked secure. -/
theorem cookie_wire_contract (now expired : Int) (secret page : List Nat) :
    ∃ tokC expC : Cookie,
      (showVerificationPage now expired secret page).cookies = [tokC, expC]
      ∧ tokC.name = ascii "oka_validation_token"
      ∧ tokC.value = encryptToken (intToDecimalBytes (now + expired * 1000)) secret
      ∧ tokC.value.length = 64
      ∧ tokC.maxAge = expired
      ∧ tokC.httpOnly = true
      ∧ tokC.secure = false
      ∧ expC.name = ascii "oka_validation_expiration"
      ∧ expC.value = intToDecimalBytes (now + expired * 1000)
      ∧ expC.maxAge = expired
      ∧ expC.httpOnly = true
      ∧ expC.secure = false
      ∧ (showVerificationPage now expired secret page).status = 200
      ∧ (showVerificationPage now expired secret page).body = page := by
  refine ⟨_, _, rfl, rfl, rfl, encryptToken_length _ _, rfl, rfl, rfl, rfl, rfl, rfl,
    rfl, rfl, rfl, rfl⟩

/-! ## Auxiliary endpoints and the pipeline (C7) -/

/-- C7 counterexample: a cookie-less GET `/health` receives the challenge
page, not the healthy JSON payload — the endpoint sits behind the
verification gate. -/
theorem health_gated_counterexample :
    handleRequest (ascii "/health") none none 0 [107] 5 60 [97] freshRedis true [] [] []
        = RouteResponse.verificationPage
    ∧ handleRequest (ascii "/health") none none 0 [107] 5 60 [97] freshRedis true [] [] []
        ≠ RouteResponse.healthOk (healthCheckHandler 0) := by
  decide

/-- C7 amended: `/health` and `/status` are registered after
`router.Use(CheckVerification, RateLimitMiddleware)`, so both sit behind the
gate and the limiter. A request that passes both stages receives 200 with
the respective payload; a request without verification cookies receives the
challenge page whatever its path. -/
theorem aux_endpoints_behind_pipeline (path : List Nat)
    (validationToken validationExpiration : Option (List Nat)) (now : Int)
    (secretKey : List Nat) (count window : Int) (clientIP : List Nat)
    (st : RedisState) (healthy : Bool) (serverName targetUrl probeResult : List Nat)
    (hgate : checkVerification validationToken validationExpiration now secretKey
      = GateOutcome.next)
    (hlimit : (rateLimitMiddleware count window clientIP st healthy).outcome
      = RLOutcome.next) :
    handleRequest (ascii "/health") validationToken validationExpiration now secretKey
        count window clientIP st healthy serverName targetUrl probeResult
      = RouteResponse.healthOk (200, ⟨ascii "healthy", now, ascii "1.0.0"⟩)
    ∧ handleRequest (ascii "/status") validationToken validationExpiration now secretKey
        count window clientIP st healthy serverName targetUrl probeResult
      = RouteResponse.statusOk (200, ⟨serverName, targetUrl, probeResult, now⟩)
    ∧ handleRequest path none none now secretKey count window clientIP st healthy
        serverName targetUrl probeResult
      = RouteResponse.verificationPage := by
  refine ⟨?_, ?_, rfl⟩ <;>
    simp only [handleRequest, hgate, hlimit, healthCheckHandler, statusHandler]
  · exact if_pos trivial
  · rw [if_neg (by decide)]
    exact if_pos trivial

/-- Witness for C7: disabled limiter and a freshly minted valid cookie pair
pass the pipeline and reach the health handler. -/
theorem aux_endpoints_behind_pipeline_witness :
    checkVerification (some (encryptToken (intToDecimalBytes 1000) [107]))
        (some (intToDecimalBytes 1000)) 999 [107] = GateOutcome.next
    ∧ (rateLimitMiddleware 0 60 [97] freshRedis true).outcome = RLOutcome.next
    ∧ handleRequest (ascii "/health") (some (encryptToken (intToDecimalBytes 1000) [107]))
        (some (intToDecimalBytes 1000)) 999 [107] 0 60 [97] freshRedis true [] [] []
      = RouteResponse.healthOk (200, ⟨ascii "healthy", 999, ascii "1.0.0"⟩) := by
  have hgate : checkVerification (some (encryptToken (intToDecimalBytes 1000) [107]))
      (some (intToDecimalBytes 1000)) 999 [107] = GateOutcome.next :=
    (gate_expiry_boundary 1000 999 (by decide) (by decide) [107]).1.mpr (by decide)
  have hlimit : (rateLimitMiddleware 0 60 [97] freshRedis true).outcome
      = RLOutcome.next := rfl
  exact ⟨hgate, hlimit,
    (aux_endpoints_behind_pipeline (ascii "/health") _ _ 999 [107] 0 60 [97] freshRedis
      true [] [] [] hgate hlimit).1⟩

/-! ## Backing-store key format (C8) -/

/-- C8 counterexample: for client identity `1.2.3.4` the key actually used is
`oka_rate_limit:1.2.3.4`, which is not `rate_limit:` followed by the
identity. -/
theorem store_key_counterexample :
    rateLimitKey (ascii "1.2.3.4") ≠ ascii "rate_limit:" ++ ascii "1.2.3.4" := by
  decide

/-- C8 amended: the key of the atomic increment-and-expire operation is the
string `oka_rate_limit:` immediately followed by the resolved client
identity; a counted request changes no other key. -/
theorem store_key_format (count window : Int) (ip : List Nat) (st : RedisState)
    (hc : count ≠ 0) (hw : window ≠ 0) :
    rateLimitKey ip = ascii "oka_rate_limit:" ++ ip
    ∧ (rateLimitMiddleware count window ip st true).state.counts
        (ascii "oka_rate_limit:" ++ ip)
      = st.counts (ascii "oka_rate_limit:" ++ ip) + 1
    ∧ (∀ k : List Nat, k ≠ ascii "oka_rate_limit:" ++ ip →
        (rateLimitMiddleware count window ip st true).state.counts k = st.counts k
        ∧ (rateLimitMiddleware count window ip st true).state.ttls k = st.ttls k) := by
  refine ⟨rfl, ?_, fun k hk => ⟨?_, ?_⟩⟩ <;>
    rw [rateLimitMiddleware_enabled count window ip st hc hw] <;>
    simp only [incrExpireScript]
  · rw [if_pos (show ascii "oka_rate_limit:" ++ ip = rateLimitKey ip from rfl)]
    rfl
  · rw [if_neg (show ¬ k = rateLimitKey ip from hk)]
  · rw [if_neg (show ¬ (k = rateLimitKey ip ∧ st.counts (rateLimitKey ip) + 1 = 1)
      from fun h => hk h.1)]

/-- Witness for C8 at a concrete configuration. -/
theorem store_key_format_witness :
    (1 : Int) ≠ 0 ∧ (60 : Int) ≠ 0 ∧
    rateLimitKey [97] = ascii "oka_rate_limit:" ++ [97] :=
  ⟨by decide, by decide, (store_key_format 1 60 [97] freshRedis (by decide) (by decide)).1⟩

end OkaProxy
